import Mathlib

/-
Verification of the acquisition-ranking engine of `src/query/query.py`
(QuerySampler and its module-level helpers).  Pure functions of the source
are embedded as Lean functions; Python exceptions are embedded as
`Except`/`Option` results; mutable collaborator state is threaded
explicitly where a frame property is at stake.  Scores (Python floats)
are embedded as rationals.  Collaborator modules that are not part of the
source tree (`query_uncertainty`, `query_diversity`, the data module, the
`ActiveStore` record) are modelled from the specification; each such
definition is marked in its doc comment.
-/

/-- Python strings are embedded as lists of characters, so that
`s.split("_")[0]` has a direct structural embedding. -/
abbrev PyStr := List Char

/-- Embedding of `self.acq_method.split("_")[0]` (query.py line 132/144):
the characters of the name before the first underscore separator. -/
def familyKey : PyStr → PyStr
  | [] => []
  | c :: cs => if c = '_' then [] else c :: familyKey cs

/-- Python exceptions that the code under verification can raise:
`NotImplementedError` (query.py line 150, the spec's UnsupportedStrategy),
the spec's EmptyPool, and `ZeroDivisionError` (query.py line 181). -/
inductive PyError
  | notImplemented
  | emptyPool
  | zeroDivision
  deriving DecidableEq

/-- Ranking order on (pool-local index, score) pairs: higher score first,
exact ties broken by the lower original encounter index. -/
def rankRel (a b : Nat × ℚ) : Prop :=
  b.2 < a.2 ∨ (a.2 = b.2 ∧ a.1 ≤ b.1)

instance rankRel_decidable : DecidableRel rankRel := fun a b =>
  inferInstanceAs (Decidable (b.2 < a.2 ∨ (a.2 = b.2 ∧ a.1 ≤ b.1)))

instance rankRel_total : IsTotal (Nat × ℚ) rankRel := by
  constructor
  intro a b
  rcases lt_trichotomy a.2 b.2 with h | h | h
  · exact Or.inr (Or.inl h)
  · rcases Nat.le_total a.1 b.1 with h1 | h1
    · exact Or.inl (Or.inr ⟨h, h1⟩)
    · exact Or.inr (Or.inr ⟨h.symm, h1⟩)
  · exact Or.inl (Or.inl h)

instance rankRel_trans : IsTrans (Nat × ℚ) rankRel := by
  constructor
  intro a b c hab hbc
  rcases hab with h1 | ⟨h1, h1'⟩ <;> rcases hbc with h2 | ⟨h2, h2'⟩
  · exact Or.inl (by linarith)
  · exact Or.inl (by rw [← h2]; exact h1)
  · exact Or.inl (by rw [h1]; exact h2)
  · exact Or.inr ⟨h1.trans h2, h1'.trans h2'⟩

/-- Modelled from the spec (the `query_uncertainty` module is not under
`src/`): per-sample scores of the uncertainty policy.  The pool loader is a
finite sequence of batches; `acq_function` yields the `m` raw scores of one
sample (one per stochastic pass) and `post_acq_function` reduces them to
one scalar.  Pool-local indices are positions in the flattened batch
sequence (running offset across batches). -/
def uncertaintyScores (pool_loader : List (List α)) (acq_function : α → List ℚ)
    (post_acq_function : List ℚ → ℚ) : List ℚ :=
  pool_loader.flatten.map fun x => post_acq_function (acq_function x)

/-- Number of samples presented by a pool loader (pool size `P`). -/
def poolSize (pool_loader : List (List α)) : Nat :=
  pool_loader.flatten.length

/-- All (pool-local index, score) pairs of a ranking round, in encounter
order. -/
def scoredPool (scores : List ℚ) : List (Nat × ℚ) :=
  (List.range scores.length).zip scores

/-- The scored pool sorted descending by score, ties by lower index. -/
def sortedPool (scores : List ℚ) : List (Nat × ℚ) :=
  List.insertionSort rankRel (scoredPool scores)

/-- Modelled from the spec: top-k selection of the uncertainty policy,
equivalent to a full stable descending sort truncated to `acq_size`. -/
def rankedSelection (scores : List ℚ) (acq_size : Nat) : List (Nat × ℚ) :=
  (sortedPool scores).take acq_size

/-- Modelled from the spec (the `query_uncertainty.query_sampler` function
is not under `src/`): the streaming uncertainty ranking engine.  A zero
pool size is the spec's EmptyPool error; otherwise the top
`min(acq_size, P)` pairs are returned, split into the index list and the
score list. -/
def query_uncertainty_sampler (pool_loader : List (List α))
    (acq_function : α → List ℚ) (post_acq_function : List ℚ → ℚ)
    (acq_size : Nat) : Except PyError (List Nat × List ℚ) :=
  let scores := uncertaintyScores pool_loader acq_function post_acq_function
  if scores.length = 0 then Except.error PyError.emptyPool
  else
    let ranked := rankedSelection scores acq_size
    Except.ok (ranked.map Prod.fst, ranked.map Prod.snd)

/-- The configuration and collaborator closures carried by a
`QuerySampler` instance (query.py lines 17-39).  The fields of the two
strategy modules that are not under `src/` are carried as opaque data:
the family name sets (`query_uncertainty.names`, `query_diversity.names`),
the resolved acquisition / post-acquisition functions, and the opaque
diversity sampler (labeled loader, pool loader, acq_size in; pre-selected
indices and scores out, as the spec's diversity contract states). -/
structure QuerySampler (α : Type) where
  m : Nat
  acq_size : Nat
  acq_method : PyStr
  model : α → List ℚ
  uncNames : List PyStr
  divNames : List PyStr
  acq_function : α → List ℚ
  post_acq_function : List ℚ → ℚ
  div_query_sampler : List (List α) → List (List α) → Nat → List Nat × List ℚ

/-- Modelled from the spec (the data module is an external collaborator,
not under `src/`): the slice of `BaseDataModule` that query.py reads.
`get_pool_index` is the spec's pure, order- and cardinality-preserving
index translation, applied elementwise; `train_set_pool` is pool sample
access returning an (input, label) pair; the validation / test loaders are
absent (`none`, Python `None`) or a batch list of (input, label) pairs. -/
structure DataModule (α : Type) where
  batch_size : Nat
  pool_dataloader : Nat → Nat → List (List α)
  labeled_dataloader : Nat → List (List α)
  get_pool_index : Nat → Nat
  train_set_pool : Nat → α × Nat
  train_set_n_labelled : Nat
  val_dl : Option (List (List (α × Nat)))
  test_dl : Option (List (List (α × Nat)))
  num_classes : Nat

/-- Embedding of `QuerySampler.ranking_step` (query.py lines 116-152):
dispatch on the strategy-name key to the uncertainty or diversity engine;
an unknown key raises `NotImplementedError`. -/
def ranking_step (qs : QuerySampler α) (pool_loader labeled_loader : List (List α)) :
    Except PyError (List Nat × List ℚ) :=
  if familyKey qs.acq_method ∈ qs.uncNames then
    query_uncertainty_sampler pool_loader qs.acq_function qs.post_acq_function qs.acq_size
  else if familyKey qs.acq_method ∈ qs.divNames then
    Except.ok (qs.div_query_sampler labeled_loader pool_loader qs.acq_size)
  else
    Except.error PyError.notImplemented

/-- Embedding of `QuerySampler.query_samples` (query.py lines 41-63):
run the ranking step on the loaders obtained from the data module, then
translate every pool-local index with `get_pool_indices`. -/
def query_samples (qs : QuerySampler α) (dm : DataModule α) :
    Except PyError (List Nat × List ℚ) :=
  let pool_loader := dm.pool_dataloader dm.batch_size qs.m
  let labeled_loader := dm.labeled_dataloader dm.batch_size
  match ranking_step qs pool_loader labeled_loader with
  | Except.error e => Except.error e
  | Except.ok (acq_inds, acq_vals) =>
      Except.ok (acq_inds.map dm.get_pool_index, acq_vals)

/-- Embedding of the module-level `obtain_data_from_pool` (query.py lines
155-165): one read of `pool[ind]` per requested index, inputs and labels
collected in encounter order. -/
def obtain_data_from_pool (pool : Nat → α × Nat) : List Nat → List α × List Nat
  | [] => ([], [])
  | ind :: rest =>
      let sample := pool ind
      let acc := obtain_data_from_pool pool rest
      (sample.1 :: acc.1, sample.2 :: acc.2)

/-- Embedding of `torch.argmax` over one class-score vector: index of the
first maximal entry. -/
def argmaxIdx : List ℚ → Nat
  | [] => 0
  | [_] => 0
  | x :: y :: rest =>
      let j := argmaxIdx (y :: rest)
      if x < (y :: rest).getD j 0 then j + 1 else 0

/-- Embedding of the module-level `evaluate_accuracy` (query.py lines
168-181).  A `None` loader short-circuits to accuracy 0.  Otherwise
correct predictions and sample counts are accumulated over the batches;
the final `correct / counts` is a Python `ZeroDivisionError` when the
loader yielded no samples, embedded as `none`. -/
def evaluate_accuracy (model : α → List ℚ)
    (dataloader : Option (List (List (α × Nat)))) : Option ℚ :=
  match dataloader with
  | none => some 0
  | some batches =>
      let correct : Nat := (batches.map fun b =>
        (b.filter fun p => argmaxIdx (model p.1) == p.2).length).sum
      let counts : Nat := (batches.map List.length).sum
      if counts = 0 then none
      else some ((correct : ℚ) / (counts : ℚ))

/-- The acquisition record assembled once per round (fields as constructed
at query.py lines 105-111; the record type itself lives in the
`query.storing` collaborator). -/
structure ActiveStore where
  requests : List Nat
  n_labelled : Nat
  accuracy_val : ℚ
  accuracy_test : ℚ
  labels : List Nat
  deriving DecidableEq

/-- Embedding of the guarded visualization step of `active_callback`
(query.py lines 90-103): when `vis` is set the visualization outcome is
evaluated, and an error outcome is caught (the bare `except:` prints a
warning and continues), so the step never contributes to the result. -/
def vis_step (vis : Bool) (vis_outcome : Except Unit Unit) : Unit :=
  if vis then
    match vis_outcome with
    | Except.ok _ => ()
    | Except.error _ => ()
  else ()

/-- Embedding of `QuerySampler.active_callback` (query.py lines 65-111):
query the pool, read the acquired samples' data and labels, snapshot
`n_labelled`, evaluate validation and test accuracy, run the guarded
visualization step, and assemble the `ActiveStore`.  `vis_outcome` stands
for whether the visualization side call would raise. -/
def active_callback (qs : QuerySampler α) (dm : DataModule α) (vis : Bool)
    (vis_outcome : Except Unit Unit) : Except PyError ActiveStore :=
  match query_samples qs dm with
  | Except.error e => Except.error e
  | Except.ok (acq_inds, _acq_vals) =>
      let acq_labels := (obtain_data_from_pool dm.train_set_pool acq_inds).2
      let n_labelled := dm.train_set_n_labelled
      match evaluate_accuracy qs.model dm.val_dl with
      | none => Except.error PyError.zeroDivision
      | some accuracy_val =>
          match evaluate_accuracy qs.model dm.test_dl with
          | none => Except.error PyError.zeroDivision
          | some accuracy_test =>
              let _ := vis_step vis vis_outcome
              Except.ok {
                requests := acq_inds
                n_labelled := n_labelled
                accuracy_val := accuracy_val
                accuracy_test := accuracy_test
                labels := acq_labels }

/-- Pool sample access of the data module, threaded as an explicit state
read: `pool[ind]` returns the sample and leaves the data module as it
was. -/
def read_pool_sample (dm : DataModule α) (ind : Nat) : (α × Nat) × DataModule α :=
  (dm.train_set_pool ind, dm)

/-- State-threaded embedding of `obtain_data_from_pool`: every pool access
goes through `read_pool_sample` and the resulting data-module state is
returned alongside the data. -/
def obtain_data_from_pool_st (dm : DataModule α) :
    List Nat → (List α × List Nat) × DataModule α
  | [] => (([], []), dm)
  | ind :: rest =>
      let r1 := read_pool_sample dm ind
      let r2 := obtain_data_from_pool_st r1.2 rest
      ((r1.1.1 :: r2.1.1, r1.1.2 :: r2.1.2), r2.2)

/-- State-threaded embedding of `query_samples`: the loader reads and the
index translation are observations of the data-module state, which is
passed along and returned. -/
def query_samples_st (qs : QuerySampler α) (dm : DataModule α) :
    Except PyError (List Nat × List ℚ) × DataModule α :=
  let bsz := dm.batch_size
  let dm1 := dm
  let pool_loader := dm1.pool_dataloader bsz qs.m
  let dm2 := dm1
  let labeled_loader := dm2.labeled_dataloader bsz
  let dm3 := dm2
  match ranking_step qs pool_loader labeled_loader with
  | Except.error e => (Except.error e, dm3)
  | Except.ok (acq_inds, acq_vals) =>
      (Except.ok (acq_inds.map dm3.get_pool_index, acq_vals), dm3)

/-- State-threaded embedding of `active_callback`: composes the threaded
`query_samples` and `obtain_data_from_pool` and returns the final
data-module state with the result. -/
def active_callback_st (qs : QuerySampler α) (dm : DataModule α) (vis : Bool)
    (vis_outcome : Except Unit Unit) :
    Except PyError ActiveStore × DataModule α :=
  match query_samples_st qs dm with
  | (Except.error e, dm1) => (Except.error e, dm1)
  | (Except.ok (acq_inds, _acq_vals), dm1) =>
      let acqRes := obtain_data_from_pool_st dm1 acq_inds
      let acq_labels := acqRes.1.2
      let dm2 := acqRes.2
      let n_labelled := dm2.train_set_n_labelled
      let dm3 := dm2
      match evaluate_accuracy qs.model dm3.val_dl with
      | none => (Except.error PyError.zeroDivision, dm3)
      | some accuracy_val =>
          match evaluate_accuracy qs.model dm3.test_dl with
          | none => (Except.error PyError.zeroDivision, dm3)
          | some accuracy_test =>
              let _ := vis_step vis vis_outcome
              (Except.ok {
                requests := acq_inds
                n_labelled := n_labelled
                accuracy_val := accuracy_val
                accuracy_test := accuracy_test
                labels := acq_labels }, dm3)

/-- Concrete sampler used by the witnesses: uncertainty method named
"ent_x" (key "ent"), acquisition size 3, identity-score acquisition. -/
def qsEx : QuerySampler Nat where
  m := 1
  acq_size := 3
  acq_method := ['e', 'n', 't', '_', 'x']
  model := fun _ => [(1 : ℚ), 0]
  uncNames := [['e', 'n', 't']]
  divNames := [['c', 'o', 'r', 'e']]
  acq_function := fun x => [(x : ℚ)]
  post_acq_function := fun l => l.headD 0
  div_query_sampler := fun _ _ _ => ([], [])

/-- Concrete data module used by the witnesses: three pool samples with
scores 10, 20, 30, translation shifting indices by 100, a one-sample
validation loader and an absent test loader. -/
def dmEx : DataModule Nat where
  batch_size := 2
  pool_dataloader := fun _ _ => [[10, 20], [30]]
  labeled_dataloader := fun _ => [[7]]
  get_pool_index := fun i => i + 100
  train_set_pool := fun i => (i, i % 2)
  train_set_n_labelled := 5
  val_dl := some [[(5, 0)]]
  test_dl := none
  num_classes := 2

/-- Variant of `dmEx` whose pool loader presents no samples. -/
def dmEmptyEx : DataModule Nat :=
  { dmEx with pool_dataloader := fun _ _ => [] }

/-- Variant of `qsEx` whose strategy key matches neither name set. -/
def qsBadEx : QuerySampler Nat :=
  { qsEx with acq_method := ['z'] }

/-- The store `active_callback qsEx dmEx` produces. -/
def storeEx : ActiveStore where
  requests := [102, 101, 100]
  n_labelled := 5
  accuracy_val := 1
  accuracy_test := 0
  labels := [0, 1, 0]

/- Helper lemmas about the ranking machinery. -/

theorem scoredPool_length (scores : List ℚ) :
    (scoredPool scores).length = scores.length := by
  simp [scoredPool]

theorem scoredPool_map_fst (scores : List ℚ) :
    (scoredPool scores).map Prod.fst = List.range scores.length :=
  List.map_fst_zip _ _ (by simp)

theorem sortedPool_perm (scores : List ℚ) :
    (sortedPool scores).Perm (scoredPool scores) :=
  List.perm_insertionSort _ _

theorem sortedPool_sorted (scores : List ℚ) :
    List.Sorted rankRel (sortedPool scores) :=
  List.sorted_insertionSort _ _

theorem sortedPool_length (scores : List ℚ) :
    (sortedPool scores).length = scores.length := by
  rw [(sortedPool_perm scores).length_eq, scoredPool_length]

theorem sortedPool_map_fst_nodup (scores : List ℚ) :
    ((sortedPool scores).map Prod.fst).Nodup := by
  have h := (sortedPool_perm scores).map Prod.fst
  rw [scoredPool_map_fst] at h
  exact h.nodup_iff.mpr (List.nodup_range _)

theorem sortedPool_map_fst_mem (scores : List ℚ) {i : Nat}
    (h : i ∈ (sortedPool scores).map Prod.fst) : i < scores.length := by
  have hp := (sortedPool_perm scores).map Prod.fst
  rw [scoredPool_map_fst] at hp
  exact List.mem_range.mp (hp.mem_iff.mp h)

theorem sortedPool_mem_pair (scores : List ℚ) (j : Nat) (hj : j < scores.length) :
    (j, scores.get ⟨j, hj⟩) ∈ sortedPool scores := by
  have hmem : (j, scores.get ⟨j, hj⟩) ∈ scoredPool scores := by
    have hlen : j < (scoredPool scores).length := by
      rw [scoredPool_length]; exact hj
    have hget : (scoredPool scores).get ⟨j, hlen⟩ = (j, scores.get ⟨j, hj⟩) := by
      simp [scoredPool, List.get_eq_getElem, List.getElem_zip]
    rw [← hget]
    exact List.get_mem _ _ _
  exact (sortedPool_perm scores).mem_iff.mpr hmem

theorem rankedSelection_length (scores : List ℚ) (k : Nat) :
    (rankedSelection scores k).length = min k scores.length := by
  simp [rankedSelection, sortedPool_length]

theorem rankedSelection_map_fst_nodup (scores : List ℚ) (k : Nat) :
    ((rankedSelection scores k).map Prod.fst).Nodup := by
  have hsub : List.Sublist ((rankedSelection scores k).map Prod.fst)
      ((sortedPool scores).map Prod.fst) :=
    ((sortedPool scores).take_sublist k).map Prod.fst
  exact (sortedPool_map_fst_nodup scores).sublist hsub

theorem rankedSelection_map_fst_mem (scores : List ℚ) (k : Nat) {i : Nat}
    (h : i ∈ (rankedSelection scores k).map Prod.fst) : i < scores.length := by
  have hsub : List.Sublist ((rankedSelection scores k).map Prod.fst)
      ((sortedPool scores).map Prod.fst) :=
    ((sortedPool scores).take_sublist k).map Prod.fst
  exact sortedPool_map_fst_mem scores (hsub.mem h)

theorem rankedSelection_sorted (scores : List ℚ) (k : Nat) :
    List.Sorted rankRel (rankedSelection scores k) :=
  (sortedPool_sorted scores).sublist ((sortedPool scores).take_sublist k)

theorem rankedSelection_vs_dropped (scores : List ℚ) (k : Nat) :
    ∀ a ∈ rankedSelection scores k, ∀ b ∈ (sortedPool scores).drop k,
      rankRel a b := by
  have hsorted := sortedPool_sorted scores
  rw [← List.take_append_drop k (sortedPool scores)] at hsorted
  exact (List.pairwise_append.mp hsorted).2.2

theorem unselected_mem_dropped (scores : List ℚ) (k : Nat) (j : Nat)
    (hj : j < scores.length)
    (hout : j ∉ (rankedSelection scores k).map Prod.fst) :
    (j, scores.get ⟨j, hj⟩) ∈ (sortedPool scores).drop k := by
  have hmem := sortedPool_mem_pair scores j hj
  rw [← List.take_append_drop k (sortedPool scores), List.mem_append] at hmem
  rcases hmem with h | h
  · exact absurd (List.mem_map_of_mem Prod.fst h) hout
  · exact h

theorem uncertaintyScores_length (pool_loader : List (List α))
    (acq_function : α → List ℚ) (post_acq_function : List ℚ → ℚ) :
    (uncertaintyScores pool_loader acq_function post_acq_function).length
      = poolSize pool_loader := by
  unfold uncertaintyScores poolSize
  rw [List.length_map]

theorem ranking_step_unc_eq (qs : QuerySampler α)
    (pool_loader labeled_loader : List (List α))
    (hfam : familyKey qs.acq_method ∈ qs.uncNames) :
    ranking_step qs pool_loader labeled_loader
      = query_uncertainty_sampler pool_loader qs.acq_function
          qs.post_acq_function qs.acq_size := by
  simp [ranking_step, hfam]

theorem query_uncertainty_sampler_pos (pool_loader : List (List α))
    (acq_function : α → List ℚ) (post_acq_function : List ℚ → ℚ)
    (acq_size : Nat)
    (hne : (uncertaintyScores pool_loader acq_function post_acq_function).length ≠ 0) :
    query_uncertainty_sampler pool_loader acq_function post_acq_function acq_size
      = Except.ok
          ((rankedSelection (uncertaintyScores pool_loader acq_function post_acq_function)
              acq_size).map Prod.fst,
           (rankedSelection (uncertaintyScores pool_loader acq_function post_acq_function)
              acq_size).map Prod.snd) := by
  simp only [query_uncertainty_sampler]
  rw [if_neg hne]

theorem query_uncertainty_sampler_ok_inv (pool_loader : List (List α))
    (acq_function : α → List ℚ) (post_acq_function : List ℚ → ℚ)
    (acq_size : Nat) (acq_inds : List Nat) (acq_vals : List ℚ)
    (hok : query_uncertainty_sampler pool_loader acq_function post_acq_function acq_size
      = Except.ok (acq_inds, acq_vals)) :
    acq_inds = (rankedSelection
        (uncertaintyScores pool_loader acq_function post_acq_function)
        acq_size).map Prod.fst ∧
    acq_vals = (rankedSelection
        (uncertaintyScores pool_loader acq_function post_acq_function)
        acq_size).map Prod.snd := by
  simp only [query_uncertainty_sampler] at hok
  split at hok
  · cases hok
  · rw [Except.ok.injEq, Prod.mk.injEq] at hok
    exact ⟨hok.1.symm, hok.2.symm⟩

theorem query_samples_ok_inv (qs : QuerySampler α) (dm : DataModule α)
    (res : List Nat × List ℚ)
    (hok : query_samples qs dm = Except.ok res) :
    ∃ acq_inds acq_vals,
      ranking_step qs (dm.pool_dataloader dm.batch_size qs.m)
          (dm.labeled_dataloader dm.batch_size) = Except.ok (acq_inds, acq_vals) ∧
      res = (acq_inds.map dm.get_pool_index, acq_vals) := by
  simp only [query_samples] at hok
  cases hr : ranking_step qs (dm.pool_dataloader dm.batch_size qs.m)
      (dm.labeled_dataloader dm.batch_size) with
  | error e => rw [hr] at hok; cases hok
  | ok p =>
      obtain ⟨acq_inds, acq_vals⟩ := p
      rw [hr] at hok
      rw [Except.ok.injEq] at hok
      exact ⟨acq_inds, acq_vals, rfl, hok.symm⟩

theorem obtain_data_from_pool_eq_map (pool : Nat → α × Nat) (indices : List Nat) :
    obtain_data_from_pool pool indices
      = (indices.map fun i => (pool i).1, indices.map fun i => (pool i).2) := by
  induction indices with
  | nil => rfl
  | cons ind rest ih => simp [obtain_data_from_pool, ih]

theorem active_callback_ok_inv (qs : QuerySampler α) (dm : DataModule α)
    (vis : Bool) (vis_outcome : Except Unit Unit) (store : ActiveStore)
    (hok : active_callback qs dm vis vis_outcome = Except.ok store) :
    ∃ acq_inds acq_vals accuracy_val accuracy_test,
      query_samples qs dm = Except.ok (acq_inds, acq_vals) ∧
      evaluate_accuracy qs.model dm.val_dl = some accuracy_val ∧
      evaluate_accuracy qs.model dm.test_dl = some accuracy_test ∧
      store = { requests := acq_inds
                n_labelled := dm.train_set_n_labelled
                accuracy_val := accuracy_val
                accuracy_test := accuracy_test
                labels := (obtain_data_from_pool dm.train_set_pool acq_inds).2 } := by
  simp only [active_callback] at hok
  cases hq : query_samples qs dm with
  | error e => rw [hq] at hok; cases hok
  | ok p =>
      obtain ⟨acq_inds, acq_vals⟩ := p
      rw [hq] at hok
      cases hv : evaluate_accuracy qs.model dm.val_dl with
      | none => rw [hv] at hok; cases hok
      | some accuracy_val =>
          rw [hv] at hok
          cases ht : evaluate_accuracy qs.model dm.test_dl with
          | none => rw [ht] at hok; cases hok
          | some accuracy_test =>
              rw [ht] at hok
              rw [Except.ok.injEq] at hok
              exact ⟨acq_inds, acq_vals, accuracy_val, accuracy_test, rfl, rfl, rfl,
                hok.symm⟩

theorem zip_map_fst_snd (l : List (Nat × ℚ)) :
    (l.map Prod.fst).zip (l.map Prod.snd) = l := by
  induction l with
  | nil => rfl
  | cons a l ih => simp [ih]

theorem obtain_data_from_pool_st_eq (dm : DataModule α) (indices : List Nat) :
    obtain_data_from_pool_st dm indices
      = (obtain_data_from_pool dm.train_set_pool indices, dm) := by
  induction indices with
  | nil => rfl
  | cons ind rest ih =>
      simp [obtain_data_from_pool_st, obtain_data_from_pool, read_pool_sample, ih]

theorem query_samples_st_eq (qs : QuerySampler α) (dm : DataModule α) :
    query_samples_st qs dm = (query_samples qs dm, dm) := by
  simp only [query_samples_st, query_samples]
  cases hr : ranking_step qs (dm.pool_dataloader dm.batch_size qs.m)
      (dm.labeled_dataloader dm.batch_size) with
  | error e => rfl
  | ok p => obtain ⟨acq_inds, acq_vals⟩ := p; rfl

theorem active_callback_st_eq (qs : QuerySampler α) (dm : DataModule α)
    (vis : Bool) (vis_outcome : Except Unit Unit) :
    active_callback_st qs dm vis vis_outcome
      = (active_callback qs dm vis vis_outcome, dm) := by
  cases hq : query_samples qs dm with
  | error e =>
      simp [active_callback_st, active_callback, query_samples_st_eq, hq]
  | ok p =>
      obtain ⟨acq_inds, acq_vals⟩ := p
      cases hv : evaluate_accuracy qs.model dm.val_dl with
      | none =>
          simp [active_callback_st, active_callback, query_samples_st_eq,
            obtain_data_from_pool_st_eq, hq, hv]
      | some accuracy_val =>
          cases ht : evaluate_accuracy qs.model dm.test_dl with
          | none =>
              simp [active_callback_st, active_callback, query_samples_st_eq,
                obtain_data_from_pool_st_eq, hq, hv, ht]
          | some accuracy_test =>
              simp [active_callback_st, active_callback, query_samples_st_eq,
                obtain_data_from_pool_st_eq, hq, hv, ht]

/-- C1: for every pool of size `P` presented to the uncertainty policy and
every configured `acq_size`, a completed ranking round (`ranking_step`)
returns exactly `min(acq_size, P)` scored entries, with pairwise-distinct
pool-local indices all drawn from `[0, P)`; in particular when
`acq_size > P` the entire pool is returned and no error is raised. -/
theorem ranking_step_selection_size (qs : QuerySampler α)
    (pool_loader labeled_loader : List (List α))
    (hfam : familyKey qs.acq_method ∈ qs.uncNames)
    (hpool : 0 < poolSize pool_loader) :
    ∃ (acq_inds : List Nat) (acq_vals : List ℚ),
      ranking_step qs pool_loader labeled_loader = Except.ok (acq_inds, acq_vals) ∧
      acq_inds.length = min qs.acq_size (poolSize pool_loader) ∧
      acq_vals.length = acq_inds.length ∧
      acq_inds.Nodup ∧
      (∀ i ∈ acq_inds, i < poolSize pool_loader) := by
  have hlen : (uncertaintyScores pool_loader qs.acq_function qs.post_acq_function).length
      = poolSize pool_loader := uncertaintyScores_length _ _ _
  have hne : (uncertaintyScores pool_loader qs.acq_function qs.post_acq_function).length ≠ 0 := by
    omega
  refine ⟨(rankedSelection (uncertaintyScores pool_loader qs.acq_function
              qs.post_acq_function) qs.acq_size).map Prod.fst,
          (rankedSelection (uncertaintyScores pool_loader qs.acq_function
              qs.post_acq_function) qs.acq_size).map Prod.snd, ?_, ?_, ?_, ?_, ?_⟩
  · rw [ranking_step_unc_eq qs _ _ hfam]
    exact query_uncertainty_sampler_pos _ _ _ _ hne
  · rw [List.length_map, rankedSelection_length, hlen]
  · rw [List.length_map, List.length_map]
  · exact rankedSelection_map_fst_nodup _ _
  · intro i hi
    exact hlen ▸ rankedSelection_map_fst_mem _ qs.acq_size hi

/-- C2: under the uncertainty policy the selection returned by the ranking
round equals the stable descending sort of all (index, score) pairs
truncated to `acq_size`: the zipped output is exactly `rankedSelection`,
every selected score is ≥ every unselected pool entry's score, the result
is pairwise descending by score, and exact score ties are ranked with the
lower original encounter index first. -/
theorem ranking_step_descending_stable (qs : QuerySampler α)
    (pool_loader labeled_loader : List (List α))
    (acq_inds : List Nat) (acq_vals : List ℚ)
    (hfam : familyKey qs.acq_method ∈ qs.uncNames)
    (hok : ranking_step qs pool_loader labeled_loader
      = Except.ok (acq_inds, acq_vals)) :
    acq_inds.zip acq_vals
      = rankedSelection (uncertaintyScores pool_loader qs.acq_function
          qs.post_acq_function) qs.acq_size ∧
    (acq_inds.zip acq_vals).Pairwise
      (fun a b => b.2 ≤ a.2 ∧ (a.2 = b.2 → a.1 ≤ b.1)) ∧
    (∀ j (hj : j < (uncertaintyScores pool_loader qs.acq_function
          qs.post_acq_function).length),
      j ∉ acq_inds →
      ∀ p ∈ acq_inds.zip acq_vals,
        (uncertaintyScores pool_loader qs.acq_function
          qs.post_acq_function).get ⟨j, hj⟩ ≤ p.2) := by
  rw [ranking_step_unc_eq qs _ _ hfam] at hok
  obtain ⟨hi, hv⟩ := query_uncertainty_sampler_ok_inv _ _ _ _ _ _ hok
  have hzip : acq_inds.zip acq_vals
      = rankedSelection (uncertaintyScores pool_loader qs.acq_function
          qs.post_acq_function) qs.acq_size := by
    rw [hi, hv, zip_map_fst_snd]
  refine ⟨hzip, ?_, ?_⟩
  · rw [hzip]
    refine (rankedSelection_sorted _ qs.acq_size).imp ?_
    intro a b hr
    rcases hr with h | ⟨h, h'⟩
    · refine ⟨le_of_lt h, ?_⟩
      intro he
      rw [he] at h
      exact absurd h (lt_irrefl _)
    · exact ⟨le_of_eq h.symm, fun _ => h'⟩
  · intro j hj hout p hp
    rw [hzip] at hp
    have hout' : j ∉ (rankedSelection (uncertaintyScores pool_loader
        qs.acq_function qs.post_acq_function) qs.acq_size).map Prod.fst := by
      rw [← hi]; exact hout
    have hdrop := unselected_mem_dropped _ qs.acq_size j hj hout'
    have hrel := rankedSelection_vs_dropped _ qs.acq_size p hp _ hdrop
    rcases hrel with h | ⟨h, _⟩
    · exact le_of_lt h
    · exact le_of_eq h.symm

/-- C3: `query_samples` applies the data source's index translation
(`get_pool_indices`) to every pool-local index produced by the ranking
step before returning; the translation preserves the order and the
cardinality of the index sequence (position `i` of the output is the
translation of position `i` of the input), and the scores are returned
unmodified alongside the translated indices. -/
theorem query_samples_translation (qs : QuerySampler α) (dm : DataModule α)
    (acq_inds : List Nat) (acq_vals : List ℚ)
    (hok : ranking_step qs (dm.pool_dataloader dm.batch_size qs.m)
        (dm.labeled_dataloader dm.batch_size) = Except.ok (acq_inds, acq_vals)) :
    query_samples qs dm = Except.ok (acq_inds.map dm.get_pool_index, acq_vals) ∧
    (acq_inds.map dm.get_pool_index).length = acq_inds.length ∧
    (∀ i (hi : i < acq_inds.length),
      (acq_inds.map dm.get_pool_index).get ⟨i, by rw [List.length_map]; exact hi⟩
        = dm.get_pool_index (acq_inds.get ⟨i, hi⟩)) := by
  refine ⟨?_, List.length_map _ _, ?_⟩
  · simp only [query_samples]
    rw [hok]
  · intro i hi
    simp [List.get_eq_getElem]

/-- C4: a visualization failure during `active_callback` (with `vis` set)
is caught, and the callback returns exactly what the non-visualizing
(`vis = False`) path returns for the same inputs — in particular the same
requests, labels, `n_labelled` and accuracy fields. -/
theorem active_callback_vis_failure_harmless (qs : QuerySampler α)
    (dm : DataModule α) :
    active_callback qs dm true (Except.error ())
      = active_callback qs dm false (Except.ok ()) := by
  rfl

/-- C5: a configured strategy name whose key (the part before the first
separator) is in neither family name set makes `ranking_step` fail with
the `NotImplementedError` embedding of UnsupportedStrategy on every input,
and neither `query_samples` nor `active_callback` produces a result or an
`ActiveStore` for that round. -/
theorem ranking_step_unsupported_strategy (qs : QuerySampler α)
    (dm : DataModule α) (vis : Bool) (vis_outcome : Except Unit Unit)
    (hu : familyKey qs.acq_method ∉ qs.uncNames)
    (hd : familyKey qs.acq_method ∉ qs.divNames) :
    (∀ pool_loader labeled_loader : List (List α),
      ranking_step qs pool_loader labeled_loader
        = Except.error PyError.notImplemented) ∧
    query_samples qs dm = Except.error PyError.notImplemented ∧
    active_callback qs dm vis vis_outcome
      = Except.error PyError.notImplemented := by
  have hr : ∀ pool_loader labeled_loader : List (List α),
      ranking_step qs pool_loader labeled_loader
        = Except.error PyError.notImplemented := by
    intro pool_loader labeled_loader
    simp [ranking_step, hu, hd]
  have hq : query_samples qs dm = Except.error PyError.notImplemented := by
    simp only [query_samples]
    rw [hr]
  refine ⟨hr, hq, ?_⟩
  simp only [active_callback]
  rw [hq]

/-- C6: running an uncertainty ranking round against a pool of size 0
fails with the EmptyPool error; the round is aborted, so `query_samples`
produces no result and `active_callback` assembles no `ActiveStore`. -/
theorem ranking_step_empty_pool (qs : QuerySampler α) (dm : DataModule α)
    (vis : Bool) (vis_outcome : Except Unit Unit)
    (hfam : familyKey qs.acq_method ∈ qs.uncNames)
    (hempty : poolSize (dm.pool_dataloader dm.batch_size qs.m) = 0) :
    ranking_step qs (dm.pool_dataloader dm.batch_size qs.m)
        (dm.labeled_dataloader dm.batch_size) = Except.error PyError.emptyPool ∧
    query_samples qs dm = Except.error PyError.emptyPool ∧
    active_callback qs dm vis vis_outcome = Except.error PyError.emptyPool := by
  have hlen : (uncertaintyScores (dm.pool_dataloader dm.batch_size qs.m)
      qs.acq_function qs.post_acq_function).length = 0 := by
    rw [uncertaintyScores_length]
    exact hempty
  have hr : ranking_step qs (dm.pool_dataloader dm.batch_size qs.m)
      (dm.labeled_dataloader dm.batch_size) = Except.error PyError.emptyPool := by
    rw [ranking_step_unc_eq qs _ _ hfam]
    simp only [query_uncertainty_sampler]
    rw [if_pos hlen]
  have hq : query_samples qs dm = Except.error PyError.emptyPool := by
    simp only [query_samples]
    rw [hr]
  refine ⟨hr, hq, ?_⟩
  simp only [active_callback]
  rw [hq]

/-- C7 counterexample: with a present but empty loader (no batches), the
source computes `correct / counts` with `counts = 0`, a
`ZeroDivisionError` (embedded as `none`) — it does not report accuracy
0. -/
theorem evaluate_accuracy_empty_loader_raises :
    evaluate_accuracy (fun _ : Nat => [(1 : ℚ)])
        (some ([] : List (List (Nat × Nat)))) = none ∧
    evaluate_accuracy (fun _ : Nat => [(1 : ℚ)])
        (some ([] : List (List (Nat × Nat)))) ≠ some 0 := by
  refine ⟨rfl, ?_⟩
  intro h
  cases h

/-- C7 (amended): an absent (`None`) loader yields accuracy 0 without
error, and a loader with at least one sample yields an accuracy in
`[0, 1]`; a present loader that yields no samples instead raises
`ZeroDivisionError` (embedded as `none`). -/
theorem evaluate_accuracy_contract (model : α → List ℚ)
    (dataloader : Option (List (List (α × Nat)))) :
    (dataloader = none → evaluate_accuracy model dataloader = some 0) ∧
    (∀ batches, dataloader = some batches → (batches.map List.length).sum = 0 →
      evaluate_accuracy model dataloader = none) ∧
    (∀ batches, dataloader = some batches → 0 < (batches.map List.length).sum →
      ∃ q, evaluate_accuracy model dataloader = some q ∧ 0 ≤ q ∧ q ≤ 1) := by
  refine ⟨?_, ?_, ?_⟩
  · intro h
    rw [h]
    rfl
  · intro batches h hz
    rw [h]
    simp only [evaluate_accuracy]
    rw [if_pos hz]
  · intro batches h hpos
    rw [h]
    simp only [evaluate_accuracy]
    rw [if_neg (by omega)]
    have hle : (batches.map fun b =>
        (b.filter fun p => argmaxIdx (model p.1) == p.2).length).sum
        ≤ (batches.map List.length).sum := by
      apply List.sum_le_sum
      intro b _
      exact List.length_filter_le _ b
    have hcast : (0 : ℚ) < ((batches.map List.length).sum : ℚ) := by
      exact_mod_cast hpos
    refine ⟨_, rfl, ?_, ?_⟩
    · exact div_nonneg (Nat.cast_nonneg _) (le_of_lt hcast)
    · rw [div_le_one hcast]
      exact Nat.cast_le.mpr hle

/-- C8: every `ActiveStore` returned by `active_callback` on the
uncertainty policy, under an injective index translation, satisfies
`len(requests) == len(labels) == len(acq_vals)` — with `acq_vals` the
scores produced by the ranking round, as surfaced by `query_samples` —
and its requests contain no duplicate indices. -/
theorem active_callback_store_invariant (qs : QuerySampler α)
    (dm : DataModule α) (vis : Bool) (vis_outcome : Except Unit Unit)
    (store : ActiveStore)
    (hfam : familyKey qs.acq_method ∈ qs.uncNames)
    (hinj : Function.Injective dm.get_pool_index)
    (hok : active_callback qs dm vis vis_outcome = Except.ok store) :
    ∃ acq_vals : List ℚ,
      query_samples qs dm = Except.ok (store.requests, acq_vals) ∧
      store.requests.length = store.labels.length ∧
      store.labels.length = acq_vals.length ∧
      store.requests.Nodup := by
  obtain ⟨acq_inds, acq_vals, accuracy_val, accuracy_test, hq, _, _, hstore⟩ :=
    active_callback_ok_inv qs dm vis vis_outcome store hok
  obtain ⟨inds0, vals0, hr, hres⟩ := query_samples_ok_inv qs dm _ hq
  rw [Prod.mk.injEq] at hres
  obtain ⟨hinds, hvals⟩ := hres
  rw [ranking_step_unc_eq qs _ _ hfam] at hr
  obtain ⟨hi0, hv0⟩ := query_uncertainty_sampler_ok_inv _ _ _ _ _ _ hr
  have hlen0 : vals0.length = inds0.length := by
    rw [hi0, hv0, List.length_map, List.length_map]
  have hnodup0 : inds0.Nodup := by
    rw [hi0]
    exact rankedSelection_map_fst_nodup _ _
  have hreq : store.requests = acq_inds := by
    rw [hstore]
  have hlab : store.labels = (obtain_data_from_pool dm.train_set_pool acq_inds).2 := by
    rw [hstore]
  refine ⟨acq_vals, ?_, ?_, ?_, ?_⟩
  · rw [hreq]
    exact hq
  · rw [hreq, hlab, obtain_data_from_pool_eq_map, List.length_map]
  · rw [hlab, obtain_data_from_pool_eq_map, List.length_map, hinds, hvals,
      List.length_map, hlen0]
  · rw [hreq, hinds]
    exact hnodup0.map hinj

/-- C9: `active_callback` and `query_samples` leave the pool unchanged —
in the state-threaded embedding, where every pool access is an explicit
read of the data-module state (pool contents, labeled/pool split and all),
both operations return the data-module state exactly as given, while
computing the same result as the direct embedding. -/
theorem active_callback_pool_frame (qs : QuerySampler α) (dm : DataModule α)
    (vis : Bool) (vis_outcome : Except Unit Unit) :
    (query_samples_st qs dm).2 = dm ∧
    (query_samples_st qs dm).1 = query_samples qs dm ∧
    (active_callback_st qs dm vis vis_outcome).2 = dm ∧
    (active_callback_st qs dm vis vis_outcome).1
      = active_callback qs dm vis vis_outcome := by
  rw [query_samples_st_eq, active_callback_st_eq]
  exact ⟨rfl, rfl, rfl, rfl⟩

/-- C10: the data and labels returned by `obtain_data_from_pool` are
positionally aligned with the input indices — entry `i` of the data is the
input and entry `i` of the labels is the ground-truth label of
`pool[indices[i]]` — and hence in every returned `ActiveStore` the `i`-th
label is the label of the sample identified by the `i`-th request. -/
theorem obtain_data_pool_alignment (qs : QuerySampler α) (dm : DataModule α)
    (vis : Bool) (vis_outcome : Except Unit Unit) :
    (∀ (pool : Nat → α × Nat) (indices : List Nat),
      obtain_data_from_pool pool indices
        = (indices.map fun i => (pool i).1, indices.map fun i => (pool i).2)) ∧
    (∀ store : ActiveStore,
      active_callback qs dm vis vis_outcome = Except.ok store →
      store.labels = store.requests.map fun i => (dm.train_set_pool i).2) := by
  refine ⟨obtain_data_from_pool_eq_map, ?_⟩
  intro store hok
  obtain ⟨acq_inds, acq_vals, accuracy_val, accuracy_test, _, _, _, hstore⟩ :=
    active_callback_ok_inv qs dm vis vis_outcome store hok
  rw [hstore, obtain_data_from_pool_eq_map]

/-- Concrete evaluation of `active_callback` on the witness instances
(the final division of the accuracy computation is settled by
`norm_num`, the rest by reduction). -/
theorem active_callback_qsEx_eval :
    active_callback qsEx dmEx false (Except.ok ()) = Except.ok storeEx := by
  have hv : evaluate_accuracy qsEx.model dmEx.val_dl = some 1 := by
    have h : evaluate_accuracy qsEx.model dmEx.val_dl
        = some ((1 : ℚ) / (1 : ℚ)) := by rfl
    rw [h]
    norm_num
  simp only [active_callback]
  rw [hv]
  rfl

/-- Witness for C1 at a concrete round: pool of size 3, `acq_size = 3`. -/
theorem ranking_step_selection_size_witness :
    ∃ (acq_inds : List Nat) (acq_vals : List ℚ),
      ranking_step qsEx [[10, 20], [30]] [[7]] = Except.ok (acq_inds, acq_vals) ∧
      acq_inds.length = min qsEx.acq_size (poolSize [[10, 20], [30]]) ∧
      acq_vals.length = acq_inds.length ∧
      acq_inds.Nodup ∧
      (∀ i ∈ acq_inds, i < poolSize [[10, 20], [30]]) :=
  ranking_step_selection_size qsEx [[10, 20], [30]] [[7]] (by decide) (by decide)

/-- Witness for C2 at the same concrete round, whose completed selection
is indices [2, 1, 0] with scores [30, 20, 10]. -/
theorem ranking_step_descending_stable_witness :
    ([2, 1, 0] : List Nat).zip ([30, 20, 10] : List ℚ)
      = rankedSelection (uncertaintyScores [[10, 20], [30]] qsEx.acq_function
          qsEx.post_acq_function) qsEx.acq_size ∧
    ((([2, 1, 0] : List Nat).zip ([30, 20, 10] : List ℚ)).Pairwise
      (fun a b => b.2 ≤ a.2 ∧ (a.2 = b.2 → a.1 ≤ b.1))) ∧
    (∀ j (hj : j < (uncertaintyScores [[10, 20], [30]] qsEx.acq_function
          qsEx.post_acq_function).length),
      j ∉ ([2, 1, 0] : List Nat) →
      ∀ p ∈ (([2, 1, 0] : List Nat).zip ([30, 20, 10] : List ℚ)),
        (uncertaintyScores [[10, 20], [30]] qsEx.acq_function
          qsEx.post_acq_function).get ⟨j, hj⟩ ≤ p.2) :=
  ranking_step_descending_stable qsEx [[10, 20], [30]] [[7]] [2, 1, 0]
    [30, 20, 10] (by decide) (by rfl)

/-- Witness for C3 at the same concrete round, with the shift-by-100
translation applied to every returned index. -/
theorem query_samples_translation_witness :
    query_samples qsEx dmEx
      = Except.ok (([2, 1, 0] : List Nat).map dmEx.get_pool_index,
          ([30, 20, 10] : List ℚ)) ∧
    (([2, 1, 0] : List Nat).map dmEx.get_pool_index).length
      = ([2, 1, 0] : List Nat).length ∧
    (∀ i (hi : i < ([2, 1, 0] : List Nat).length),
      (([2, 1, 0] : List Nat).map dmEx.get_pool_index).get
          ⟨i, by rw [List.length_map]; exact hi⟩
        = dmEx.get_pool_index (([2, 1, 0] : List Nat).get ⟨i, hi⟩)) :=
  query_samples_translation qsEx dmEx [2, 1, 0] [30, 20, 10] (by rfl)

/-- Witness for C5 at a concrete round with strategy key "z". -/
theorem ranking_step_unsupported_strategy_witness :
    (∀ pool_loader labeled_loader : List (List Nat),
      ranking_step qsBadEx pool_loader labeled_loader
        = Except.error PyError.notImplemented) ∧
    query_samples qsBadEx dmEx = Except.error PyError.notImplemented ∧
    active_callback qsBadEx dmEx true (Except.ok ())
      = Except.error PyError.notImplemented :=
  ranking_step_unsupported_strategy qsBadEx dmEx true (Except.ok ())
    (by decide) (by decide)

/-- Witness for C6 at a concrete round against an empty pool. -/
theorem ranking_step_empty_pool_witness :
    ranking_step qsEx (dmEmptyEx.pool_dataloader dmEmptyEx.batch_size qsEx.m)
        (dmEmptyEx.labeled_dataloader dmEmptyEx.batch_size)
      = Except.error PyError.emptyPool ∧
    query_samples qsEx dmEmptyEx = Except.error PyError.emptyPool ∧
    active_callback qsEx dmEmptyEx false (Except.ok ())
      = Except.error PyError.emptyPool :=
  ranking_step_empty_pool qsEx dmEmptyEx false (Except.ok ())
    (by decide) (by rfl)

/-- Witness for the amended C7 at a concrete one-sample loader. -/
theorem evaluate_accuracy_contract_witness :
    ∃ q, evaluate_accuracy (fun _ : Nat => [(1 : ℚ), 0])
        (some [[((5 : Nat), (0 : Nat))]]) = some q ∧ 0 ≤ q ∧ q ≤ 1 :=
  (evaluate_accuracy_contract (fun _ : Nat => [(1 : ℚ), 0])
    (some [[((5 : Nat), (0 : Nat))]])).2.2 [[((5 : Nat), (0 : Nat))]] rfl
    (by decide)

/-- Witness for C8 at a concrete completed round. -/
theorem active_callback_store_invariant_witness :
    ∃ acq_vals : List ℚ,
      query_samples qsEx dmEx = Except.ok (storeEx.requests, acq_vals) ∧
      storeEx.requests.length = storeEx.labels.length ∧
      storeEx.labels.length = acq_vals.length ∧
      storeEx.requests.Nodup :=
  active_callback_store_invariant qsEx dmEx false (Except.ok ()) storeEx
    (by decide)
    (fun a b h => by
      simp only [dmEx] at h
      omega)
    active_callback_qsEx_eval

/-- Witness for C10 at the same concrete completed round. -/
theorem obtain_data_pool_alignment_witness :
    storeEx.labels = storeEx.requests.map (fun i => (dmEx.train_set_pool i).2) :=
  (obtain_data_pool_alignment qsEx dmEx false (Except.ok ())).2 storeEx
    active_callback_qsEx_eval
